import Mathlib

/-!
Ship statistics (`src/shipstats.c`)

A shallow embedding of the ship-statistics catalog, the override list built from
document nodes, and the fold of an override list onto a dense record.

Conventions of the embedding.

* `double` values are exact rationals.
* The record `ShipStats` is addressed by byte offset, as the C code does through
  `(double*) &ptr[ sl->offset ]`: a record is the map from a byte offset to the
  `double` stored there.
* The header `shipstats.h` is not part of the sources.  The offsets of the
  members of `struct ShipStats` are therefore a parameter `off` of everything
  that reads the table; the numbering of `enum ShipStatsType` is modelled below.
* Operations whose C behaviour is undefined on some inputs (`strcmp` on a null
  pointer, indexing past the end of `ss_lookup`) return `Except Fault _`.
* A `ShipStatList*` is a finite chain of nodes: the null pointer is `[]` and a
  node whose `next` is `p` is `n :: p`.
-/

namespace Naev

/-! ## Data model -/

/-- Identifier of a statistic (`ShipStatsType`), also the index into `ss_lookup`. -/
abbrev ShipStatsType := Nat

/-- Modelled from the spec: the declaration of `enum ShipStatsType` (in `shipstats.h`)
is missing; identifiers are dense and contiguous, starting at the reserved nil
identifier, numbered from 0 in the order in which the table lists them. -/
def SS_TYPE_NIL : ShipStatsType := 0
/-- Modelled from the spec: enumerator following `SS_TYPE_NIL`. -/
def SS_TYPE_D_JUMP_DELAY : ShipStatsType := 1
/-- Modelled from the spec: next enumerator of `ShipStatsType`. -/
def SS_TYPE_D_JUMP_RANGE : ShipStatsType := 2
/-- Modelled from the spec: next enumerator of `ShipStatsType`. -/
def SS_TYPE_D_CARGO_INERTIA : ShipStatsType := 3
/-- Modelled from the spec: next enumerator of `ShipStatsType`. -/
def SS_TYPE_D_EW_HIDE : ShipStatsType := 4
/-- Modelled from the spec: next enumerator of `ShipStatsType`. -/
def SS_TYPE_D_EW_DETECT : ShipStatsType := 5
/-- Modelled from the spec: next enumerator of `ShipStatsType`. -/
def SS_TYPE_D_LAUNCH_RATE : ShipStatsType := 6
/-- Modelled from the spec: next enumerator of `ShipStatsType`. -/
def SS_TYPE_D_LAUNCH_RANGE : ShipStatsType := 7
/-- Modelled from the spec: next enumerator of `ShipStatsType`. -/
def SS_TYPE_D_AMMO_CAPACITY : ShipStatsType := 8
/-- Modelled from the spec: next enumerator of `ShipStatsType`. -/
def SS_TYPE_D_FORWARD_HEAT : ShipStatsType := 9
/-- Modelled from the spec: next enumerator of `ShipStatsType`. -/
def SS_TYPE_D_FORWARD_DAMAGE : ShipStatsType := 10
/-- Modelled from the spec: next enumerator of `ShipStatsType`. -/
def SS_TYPE_D_FORWARD_FIRERATE : ShipStatsType := 11
/-- Modelled from the spec: next enumerator of `ShipStatsType`. -/
def SS_TYPE_D_FORWARD_ENERGY : ShipStatsType := 12
/-- Modelled from the spec: next enumerator of `ShipStatsType`. -/
def SS_TYPE_D_TURRET_HEAT : ShipStatsType := 13
/-- Modelled from the spec: next enumerator of `ShipStatsType`. -/
def SS_TYPE_D_TURRET_DAMAGE : ShipStatsType := 14
/-- Modelled from the spec: next enumerator of `ShipStatsType`. -/
def SS_TYPE_D_TURRET_FIRERATE : ShipStatsType := 15
/-- Modelled from the spec: next enumerator of `ShipStatsType`. -/
def SS_TYPE_D_TURRET_ENERGY : ShipStatsType := 16
/-- Modelled from the spec: next enumerator of `ShipStatsType`. -/
def SS_TYPE_D_NEBULA_DMG_SHIELD : ShipStatsType := 17
/-- Modelled from the spec: next enumerator of `ShipStatsType`. -/
def SS_TYPE_D_NEBULA_DMG_ARMOUR : ShipStatsType := 18
/-- Modelled from the spec: next enumerator of `ShipStatsType`. -/
def SS_TYPE_D_HEAT_DISSIPATION : ShipStatsType := 19
/-- Modelled from the spec: delimiter closing the section of scalar statistics. -/
def SS_TYPE_D_SENTINAL : ShipStatsType := 20
/-- Modelled from the spec: delimiter closing the section of flag statistics. -/
def SS_TYPE_B_SENTINAL : ShipStatsType := 21
/-- Modelled from the spec: the terminal identifier. -/
def SS_TYPE_SENTINAL : ShipStatsType := 22

/-- The members of `struct ShipStats` that the table names in `offsetof( ShipStats, n )`. -/
inductive Field where
  | jump_delay | jump_range | cargo_inertia
  | ew_hide | ew_detect
  | launch_rate | launch_range | ammo_capacity
  | fwd_heat | fwd_damage | fwd_firerate | fwd_energy
  | tur_heat | tur_damage | tur_firerate | tur_energy
  | nebula_dmg_shield | nebula_dmg_armour
  | heat_dissipation
  deriving DecidableEq, Repr

/-- Byte offsets of the members of `struct ShipStats` (`offsetof( ShipStats, n )`);
the structure is declared in the missing header, so the layout is a parameter. -/
abbrev Layout := Field → Nat

/-- A layout with the nineteen members in table order, eight bytes each. Used for
concrete evaluations only. -/
def packedLayout : Layout
  | .jump_delay => 0 | .jump_range => 8 | .cargo_inertia => 16
  | .ew_hide => 24 | .ew_detect => 32
  | .launch_rate => 40 | .launch_range => 48 | .ammo_capacity => 56
  | .fwd_heat => 64 | .fwd_damage => 72 | .fwd_firerate => 80 | .fwd_energy => 88
  | .tur_heat => 96 | .tur_damage => 104 | .tur_firerate => 112 | .tur_energy => 120
  | .nebula_dmg_shield => 128 | .nebula_dmg_armour => 136
  | .heat_dissipation => 144

/-- The dense record, addressed by byte offset: `r o` is the `double` at `&ptr[o]`. -/
abbrev ShipStats := Nat → ℚ

/-- Undefined behaviour the C code can run into. -/
inductive Fault where
  /-- A null pointer is dereferenced (`strcmp` on a null name). -/
  | nullDeref
  /-- The table `ss_lookup` is indexed past its end. -/
  | outOfBounds
  deriving DecidableEq, Repr

/-- One row of the catalog (`struct ShipStatsLookup_`); a null `name` is `none`. -/
structure ShipStatsLookup where
  type : ShipStatsType
  name : Option String
  offset : Nat
  data : Int
  deriving DecidableEq, Repr

/-- The `ELEM( t, n, d )` initialiser. The macro writes `.name="#n"`: inside a string
literal the parameter is not replaced, so the name is the two characters `#n`. -/
def ELEM (off : Layout) (t : ShipStatsType) (n : Field) (d : Int) : ShipStatsLookup :=
  { type := t, name := some "#n", offset := off n, data := d }

/-- The `NELEM( t )` initialiser; the member `data` is not named and so is zero. -/
def NELEM (t : ShipStatsType) : ShipStatsLookup :=
  { type := t, name := none, offset := 0, data := 0 }

/-- The catalog `ss_lookup`. -/
def ss_lookup (off : Layout) : List ShipStatsLookup :=
  [ NELEM SS_TYPE_NIL,
    ELEM off SS_TYPE_D_JUMP_DELAY .jump_delay 0,
    ELEM off SS_TYPE_D_JUMP_RANGE .jump_range 0,
    ELEM off SS_TYPE_D_CARGO_INERTIA .cargo_inertia 0,
    ELEM off SS_TYPE_D_EW_HIDE .ew_hide 0,
    ELEM off SS_TYPE_D_EW_DETECT .ew_detect 0,
    ELEM off SS_TYPE_D_LAUNCH_RATE .launch_rate 0,
    ELEM off SS_TYPE_D_LAUNCH_RANGE .launch_range 0,
    ELEM off SS_TYPE_D_AMMO_CAPACITY .ammo_capacity 0,
    ELEM off SS_TYPE_D_FORWARD_HEAT .fwd_heat 0,
    ELEM off SS_TYPE_D_FORWARD_DAMAGE .fwd_damage 0,
    ELEM off SS_TYPE_D_FORWARD_FIRERATE .fwd_firerate 0,
    ELEM off SS_TYPE_D_FORWARD_ENERGY .fwd_energy 0,
    ELEM off SS_TYPE_D_TURRET_HEAT .tur_heat 0,
    ELEM off SS_TYPE_D_TURRET_DAMAGE .tur_damage 0,
    ELEM off SS_TYPE_D_TURRET_FIRERATE .tur_firerate 0,
    ELEM off SS_TYPE_D_TURRET_ENERGY .tur_energy 0,
    ELEM off SS_TYPE_D_NEBULA_DMG_SHIELD .nebula_dmg_shield 0,
    ELEM off SS_TYPE_D_NEBULA_DMG_ARMOUR .nebula_dmg_armour 0,
    ELEM off SS_TYPE_D_HEAT_DISSIPATION .heat_dissipation 0,
    NELEM SS_TYPE_D_SENTINAL,
    NELEM SS_TYPE_B_SENTINAL,
    NELEM SS_TYPE_SENTINAL ]

/-- Read of `ss_lookup[ i ]`; past the end of the array the read is undefined. -/
def lookupAt (off : Layout) (i : Nat) : Except Fault ShipStatsLookup :=
  match (ss_lookup off)[i]? with
  | some sl => .ok sl
  | none => .error .outOfBounds

/-- A node of an override list (`ShipStatList` without its `next` link, which is the
tail of the chain). -/
structure ShipStatNode where
  target : Int
  type : ShipStatsType
  d : ℚ
  deriving DecidableEq, Repr

/-- An override list: the chain of nodes reached from a `ShipStatList*`. -/
abbrev ShipStatList := List ShipStatNode

/-- What the code reads of an `xmlNodePtr`: `node->name` and `xml_getFloat(node)`. -/
structure XmlNode where
  name : String
  getFloat : ℚ
  deriving DecidableEq, Repr

/-! ## Operations -/

/-- The scan of `ss_typeFromName` over the rows from the current index on. -/
def typeFromNameScan (name : String) : List ShipStatsLookup → Except Fault ShipStatsType
  | [] => .error .outOfBounds
  | sl :: rest =>
    if sl.type = SS_TYPE_SENTINAL then .ok SS_TYPE_NIL
    else match sl.name with
      | none => .error .nullDeref
      | some n => if name = n then .ok sl.type else typeFromNameScan name rest

/-- Lookup `ss_typeFromName`: the scan starts at index 0. -/
def ss_typeFromName (off : Layout) (name : String) : Except Fault ShipStatsType :=
  typeFromNameScan name (ss_lookup off)

/-- Lookup `ss_nameFromType`: `ss_lookup[ type ].name`. -/
def ss_nameFromType (off : Layout) (type : ShipStatsType) : Except Fault (Option String) :=
  (lookupAt off type).map (·.name)

/-- The part of `ss_listFromXML` after the type is known: allocate the node and
"set the data". `heap` is the content of the freshly allocated `d.d`. -/
def listFromType (off : Layout) (node : XmlNode) (heap : ℚ) (type : ShipStatsType) :
    Except Fault ShipStatList := do
  let sl ← lookupAt off type
  let d := if sl.type = 0 then node.getFloat else heap
  pure [{ target := 0, type := type, d := d }]

/-- Constructor `ss_listFromXML`; the null result is `[]`. -/
def ss_listFromXML (off : Layout) (node : XmlNode) (heap : ℚ) : Except Fault ShipStatList := do
  let type ← ss_typeFromName off node.name
  if type = SS_TYPE_NIL then pure []
  else listFromType off node heap type

/-- The loop of `ss_check` from index `i` on, over the rows from `i` on. -/
def checkScan : Nat → List ShipStatsLookup → Int
  | _, [] => 0
  | i, sl :: rest => if sl.type ≠ i then -1 else checkScan (i + 1) rest

/-- The check of `ss_check` over a table: indices `0 .. SS_TYPE_SENTINAL`. -/
def checkTable (tbl : List ShipStatsLookup) : Int :=
  checkScan 0 (tbl.take (SS_TYPE_SENTINAL + 1))

/-- Sanity check `ss_check` of the shipped table. -/
def ss_check (off : Layout) : Int :=
  checkTable (ss_lookup off)

/-- One iteration of the loop of `ss_statsInit`. -/
def initStep (stats : ShipStats) (sl : ShipStatsLookup) : ShipStats :=
  match sl.name with
  | none => stats
  | some _ => if sl.type = 0 then Function.update stats sl.offset 1 else stats

/-- Initialiser `ss_statsInit`: the record afterwards and the value returned.
`debugging` is the compile-time switch `DEBUGGING`. -/
def ss_statsInit (debugging : Bool) (off : Layout) (stats : ShipStats) : ShipStats × Int :=
  let cleared : ShipStats := if debugging then fun _ => 0 else stats
  (((ss_lookup off).take SS_TYPE_SENTINAL).foldl initStep cleared, 0)

/-- Application `ss_statsMod` of one node: the record afterwards and the value returned. -/
def ss_statsMod (off : Layout) (stats : ShipStats) (node : ShipStatNode) :
    Except Fault (ShipStats × Int) := do
  let sl ← lookupAt off node.type
  if sl.data = 0 then
    pure (Function.update stats sl.offset (stats sl.offset * node.d), 0)
  else
    pure (stats, 0)

/-- The loop of `ss_statsModFromList`, with the running `ret`. -/
def modLoop (off : Layout) : ShipStats → Int → ShipStatList → Except Fault (ShipStats × Int)
  | stats, ret, [] => pure (stats, ret)
  | stats, ret, ll :: next => do
    let (stats1, r) ← ss_statsMod off stats ll
    modLoop off stats1 (Int.lor ret r) next

/-- Fold `ss_statsModFromList`. -/
def ss_statsModFromList (off : Layout) (stats : ShipStats) (list : ShipStatList) :
    Except Fault (ShipStats × Int) :=
  modLoop off stats 0 list

/-- Modelled from the spec: the caller that walks a source document is not part of the
sources. One override is built per node, null results are dropped, and the nodes
are chained in document order. -/
def listFromDocument (off : Layout) (heap : ℚ) : List XmlNode → Except Fault ShipStatList
  | [] => pure []
  | node :: rest => do
    let ll ← ss_listFromXML off node heap
    let chain ← listFromDocument off heap rest
    pure (ll ++ chain)

/-- Modelled from the spec: the caller's data flow (section 2), "document, override
list construction, fold onto a freshly initialised record". Returns the list built,
the resolved record and the value returned by the fold. -/
def resolveDocument (debugging : Bool) (off : Layout) (heap : ℚ) (stats : ShipStats)
    (doc : List XmlNode) : Except Fault (ShipStatList × ShipStats × Int) := do
  let list ← listFromDocument off heap doc
  let fresh := (ss_statsInit debugging off stats).1
  let (result, ret) ← ss_statsModFromList off fresh list
  pure (list, result, ret)

/-! ## Auxiliary definitions -/

/-- Offset stored in row `t` of the table (0 past its end). -/
def typeOffset (off : Layout) (t : ShipStatsType) : Nat :=
  match (ss_lookup off)[t]? with
  | some sl => sl.offset
  | none => 0

/-- Product of the values of the nodes of `L` that address the cell at offset `o`. -/
def cellFactor (off : Layout) (L : ShipStatList) (o : Nat) : ℚ :=
  ((L.filter (fun n => typeOffset off n.type = o)).map (·.d)).prod

/-- The identifier whose row addresses a member. -/
def fieldType : Field → ShipStatsType
  | .jump_delay => 1 | .jump_range => 2 | .cargo_inertia => 3
  | .ew_hide => 4 | .ew_detect => 5
  | .launch_rate => 6 | .launch_range => 7 | .ammo_capacity => 8
  | .fwd_heat => 9 | .fwd_damage => 10 | .fwd_firerate => 11 | .fwd_energy => 12
  | .tur_heat => 13 | .tur_damage => 14 | .tur_firerate => 15 | .tur_energy => 16
  | .nebula_dmg_shield => 17 | .nebula_dmg_armour => 18
  | .heat_dissipation => 19

/-- Whether an identifier names a scalar statistic: it lies strictly between
`SS_TYPE_NIL` and `SS_TYPE_D_SENTINAL`. -/
def isScalarType (t : ShipStatsType) : Bool :=
  decide (SS_TYPE_NIL < t) && decide (t < SS_TYPE_D_SENTINAL)

/-- A table with the declared identifiers of rows `i` and `i + 1` exchanged; the
other members of the two rows stay where they are. -/
def swapTypes (tbl : List ShipStatsLookup) (i : Nat) : List ShipStatsLookup :=
  match tbl[i]?, tbl[i + 1]? with
  | some a, some b =>
    (tbl.set i { a with type := b.type }).set (i + 1) { b with type := a.type }
  | _, _ => tbl

/-- The fold as the specification words it: `ss_statsMod` is applied to every node
in sequence, each on the record left by the previous one, and the results are
aggregated with a logical OR, without stopping at a non-zero result. -/
def foldEveryNode (off : Layout) (stats : ShipStats) (list : ShipStatList) :
    Except Fault (ShipStats × Int) :=
  list.foldlM
    (fun (acc : ShipStats × Int) (ll : ShipStatNode) =>
      (ss_statsMod off acc.1 ll).map (fun res => (res.1, Int.lor acc.2 res.2)))
    (stats, 0)

/-- The second arguments handed to `strcmp` by the scan of `ss_typeFromName`, in
order, up to the call that ends the scan; a null pointer is `none`. -/
def comparedNames (name : String) : List ShipStatsLookup → List (Option String)
  | [] => []
  | sl :: rest =>
    if sl.type = SS_TYPE_SENTINAL then []
    else match sl.name with
      | none => [none]
      | some n => some n :: (if name = n then [] else comparedNames name rest)

/-- The spelling of a member of `struct ShipStats`, the text `#n` would produce. -/
def fieldName : Field → String
  | .jump_delay => "jump_delay" | .jump_range => "jump_range"
  | .cargo_inertia => "cargo_inertia"
  | .ew_hide => "ew_hide" | .ew_detect => "ew_detect"
  | .launch_rate => "launch_rate" | .launch_range => "launch_range"
  | .ammo_capacity => "ammo_capacity"
  | .fwd_heat => "fwd_heat" | .fwd_damage => "fwd_damage"
  | .fwd_firerate => "fwd_firerate" | .fwd_energy => "fwd_energy"
  | .tur_heat => "tur_heat" | .tur_damage => "tur_damage"
  | .tur_firerate => "tur_firerate" | .tur_energy => "tur_energy"
  | .nebula_dmg_shield => "nebula_dmg_shield" | .nebula_dmg_armour => "nebula_dmg_armour"
  | .heat_dissipation => "heat_dissipation"

/-! ## Auxiliary facts -/

theorem lookupAt_data (off : Layout) (t : Nat) (sl : ShipStatsLookup)
    (h : lookupAt off t = .ok sl) : sl.data = 0 ∧ sl.offset = typeOffset off t := by
  unfold lookupAt at h
  unfold typeOffset
  have hlt : t < 23 ∨ 23 ≤ t := by omega
  rcases hlt with hlt | hge
  · interval_cases t <;> simp [ss_lookup, ELEM, NELEM] at h ⊢ <;> subst h <;> simp
  · have hlen : (ss_lookup off).length ≤ t := by simpa [ss_lookup] using hge
    rw [List.getElem?_eq_none hlen] at h
    simp at h

theorem lookupAt_ok (off : Layout) (t : Nat) (h : t ≤ SS_TYPE_SENTINAL) :
    ∃ sl, lookupAt off t = .ok sl := by
  unfold lookupAt
  have hlt : t < (ss_lookup off).length := by
    simp [ss_lookup, SS_TYPE_SENTINAL] at h ⊢; omega
  rw [List.getElem?_eq_getElem hlt]
  exact ⟨_, rfl⟩

theorem statsMod_eq (off : Layout) (stats : ShipStats) (n : ShipStatNode)
    (h : n.type ≤ SS_TYPE_SENTINAL) :
    ss_statsMod off stats n =
      .ok (Function.update stats (typeOffset off n.type)
            (stats (typeOffset off n.type) * n.d), 0) := by
  obtain ⟨sl, hsl⟩ := lookupAt_ok off n.type h
  obtain ⟨hd, ho⟩ := lookupAt_data off n.type sl hsl
  unfold ss_statsMod
  rw [hsl]
  simp [bind, Except.bind, pure, Except.pure, hd, ho]

theorem cellFactor_nil (off : Layout) (o : Nat) : cellFactor off [] o = 1 := by
  simp [cellFactor]

theorem cellFactor_cons (off : Layout) (n : ShipStatNode) (L : ShipStatList) (o : Nat) :
    cellFactor off (n :: L) o =
      (if typeOffset off n.type = o then n.d else 1) * cellFactor off L o := by
  unfold cellFactor
  by_cases h : typeOffset off n.type = o <;> simp [List.filter_cons, h]

/-- Closed form of the fold over a list whose identifiers index the table. -/
theorem modLoop_eq (off : Layout) (L : ShipStatList) :
    ∀ stats : ShipStats, (∀ n ∈ L, n.type ≤ SS_TYPE_SENTINAL) →
      modLoop off stats 0 L = .ok (fun o => stats o * cellFactor off L o, 0) := by
  induction L with
  | nil =>
    intro stats _
    simp [modLoop, cellFactor_nil, pure, Except.pure]
  | cons n L ih =>
    intro stats h
    have hn : n.type ≤ SS_TYPE_SENTINAL := h n (List.mem_cons_self _ _)
    have hL : ∀ m ∈ L, m.type ≤ SS_TYPE_SENTINAL :=
      fun m hm => h m (List.mem_cons_of_mem _ hm)
    have hz : Int.lor 0 0 = 0 := by decide
    unfold modLoop
    rw [statsMod_eq off stats n hn]
    simp only [bind, Except.bind, hz]
    rw [ih _ hL]
    congr 2
    funext o
    rw [cellFactor_cons]
    by_cases ho : typeOffset off n.type = o
    · subst ho
      simp [Function.update_same, mul_assoc]
    · have ho2 : o ≠ typeOffset off n.type := fun e => ho e.symm
      simp [Function.update_noteq ho2, ho]

theorem cellFactor_perm (off : Layout) (L1 L2 : ShipStatList) (h : L1.Perm L2) (o : Nat) :
    cellFactor off L1 o = cellFactor off L2 o := by
  unfold cellFactor
  exact ((h.filter _).map _).prod_eq

theorem typeOffset_field (off : Layout) (t : Nat) (h1 : SS_TYPE_NIL < t)
    (h2 : t < SS_TYPE_D_SENTINAL) :
    ∃ f, typeOffset off t = off f ∧ fieldType f = t := by
  simp only [SS_TYPE_NIL, SS_TYPE_D_SENTINAL] at h1 h2
  interval_cases t
  · exact ⟨.jump_delay, rfl, rfl⟩
  · exact ⟨.jump_range, rfl, rfl⟩
  · exact ⟨.cargo_inertia, rfl, rfl⟩
  · exact ⟨.ew_hide, rfl, rfl⟩
  · exact ⟨.ew_detect, rfl, rfl⟩
  · exact ⟨.launch_rate, rfl, rfl⟩
  · exact ⟨.launch_range, rfl, rfl⟩
  · exact ⟨.ammo_capacity, rfl, rfl⟩
  · exact ⟨.fwd_heat, rfl, rfl⟩
  · exact ⟨.fwd_damage, rfl, rfl⟩
  · exact ⟨.fwd_firerate, rfl, rfl⟩
  · exact ⟨.fwd_energy, rfl, rfl⟩
  · exact ⟨.tur_heat, rfl, rfl⟩
  · exact ⟨.tur_damage, rfl, rfl⟩
  · exact ⟨.tur_firerate, rfl, rfl⟩
  · exact ⟨.tur_energy, rfl, rfl⟩
  · exact ⟨.nebula_dmg_shield, rfl, rfl⟩
  · exact ⟨.nebula_dmg_armour, rfl, rfl⟩
  · exact ⟨.heat_dissipation, rfl, rfl⟩

/-- With distinct members at distinct offsets, the rows of distinct scalar
statistics address distinct cells. -/
theorem typeOffset_inj (off : Layout) (hinj : Function.Injective off) (t u : Nat)
    (ht1 : SS_TYPE_NIL < t) (ht2 : t < SS_TYPE_D_SENTINAL)
    (hu1 : SS_TYPE_NIL < u) (hu2 : u < SS_TYPE_D_SENTINAL) :
    typeOffset off t = typeOffset off u ↔ t = u := by
  constructor
  · intro h
    obtain ⟨f, hf, hft⟩ := typeOffset_field off t ht1 ht2
    obtain ⟨g, hg, hgu⟩ := typeOffset_field off u hu1 hu2
    rw [hf, hg] at h
    have hfg : f = g := hinj h
    rw [← hft, ← hgu, hfg]
  · intro h
    rw [h]

theorem cellFactor_type (off : Layout) (hinj : Function.Injective off) (L : ShipStatList)
    (hL : ∀ n ∈ L, SS_TYPE_NIL < n.type ∧ n.type < SS_TYPE_D_SENTINAL)
    (i : Nat) (h1 : SS_TYPE_NIL < i) (h2 : i < SS_TYPE_D_SENTINAL) :
    cellFactor off L (typeOffset off i) =
      ((L.filter (fun n => n.type = i)).map (·.d)).prod := by
  induction L with
  | nil => simp [cellFactor]
  | cons n L ih =>
    have hn := hL n (List.mem_cons_self _ _)
    have hrest : ∀ m ∈ L, SS_TYPE_NIL < m.type ∧ m.type < SS_TYPE_D_SENTINAL :=
      fun m hm => hL m (List.mem_cons_of_mem _ hm)
    rw [cellFactor_cons, ih hrest]
    have hiff := typeOffset_inj off hinj n.type i hn.1 hn.2 h1 h2
    by_cases hni : n.type = i
    · simp [List.filter_cons, hni]
    · have hne : ¬ typeOffset off n.type = typeOffset off i := fun e => hni (hiff.mp e)
      simp [List.filter_cons, hni, hne]

theorem packedLayout_injective : Function.Injective packedLayout := by
  intro a b h
  cases a <;> cases b <;> first | rfl | (exfalso; revert h; decide)

theorem scalar_le_sentinal (t : Nat) (h : SS_TYPE_NIL < t ∧ t < SS_TYPE_D_SENTINAL) :
    t ≤ SS_TYPE_SENTINAL := by
  have h2 := h.2
  simp only [SS_TYPE_D_SENTINAL, SS_TYPE_SENTINAL] at *
  omega

/-! ## Catalog lookups -/

/-- C1 (fails on the code): at the identifier `SS_TYPE_D_JUMP_RANGE` the name returned
by `ss_nameFromType` is the literal `#n`, the same name as for `SS_TYPE_D_JUMP_DELAY`,
and `ss_typeFromName` on that name hands the null name of row 0 to `strcmp` instead
of returning `SS_TYPE_D_JUMP_RANGE`. -/
theorem roundTrip_jump_range (off : Layout) :
    ss_nameFromType off SS_TYPE_D_JUMP_RANGE = .ok (some "#n") ∧
    ss_typeFromName off "#n" = .error .nullDeref ∧
    ss_nameFromType off SS_TYPE_D_JUMP_DELAY = ss_nameFromType off SS_TYPE_D_JUMP_RANGE :=
  ⟨rfl, rfl, rfl⟩

/-- C9 (fails on the code): for every input string the scan of `ss_typeFromName`
starts at row 0, whose name is null, and compares the input with it: the call is
undefined; it returns neither `SS_TYPE_NIL` nor an identifier. -/
theorem typeFromName_undefined (off : Layout) (s : String) :
    ss_typeFromName off s = .error .nullDeref :=
  rfl

/-- C7 (fails on the code): for every source node, recognised or not, `ss_listFromXML`
does not return; the name lookup it starts with dereferences a null name. -/
theorem listFromXML_undefined (off : Layout) (node : XmlNode) (heap : ℚ) :
    ss_listFromXML off node heap = .error .nullDeref :=
  rfl

/-- C8 (fails on the code): once the identifier `i` of a scalar statistic is known,
the node built carries identifier `i` and an empty `next`, but its value is the
content of the allocation, not `xml_getFloat(node)`: the store is guarded by
`sl->type == 0`, false for every such `i`. The whole call does not get that far. -/
theorem listFromType_value (off : Layout) (node : XmlNode) (heap : ℚ) (i : ShipStatsType)
    (h1 : SS_TYPE_NIL < i) (h2 : i < SS_TYPE_D_SENTINAL) :
    listFromType off node heap i = .ok [{ target := 0, type := i, d := heap }] ∧
    ss_listFromXML off node heap = .error .nullDeref := by
  refine ⟨?_, rfl⟩
  simp only [SS_TYPE_NIL, SS_TYPE_D_SENTINAL] at h1 h2
  interval_cases i <;> rfl

/-- Witness of `listFromType_value`: the node `jump_delay` with value 0.8 and the
identifier `SS_TYPE_D_JUMP_DELAY`; the value kept is the allocation's 0. -/
theorem listFromType_value_witness :
    SS_TYPE_NIL < SS_TYPE_D_JUMP_DELAY ∧ SS_TYPE_D_JUMP_DELAY < SS_TYPE_D_SENTINAL ∧
    listFromType packedLayout ⟨"jump_delay", 4 / 5⟩ 0 SS_TYPE_D_JUMP_DELAY
      = .ok [{ target := 0, type := SS_TYPE_D_JUMP_DELAY, d := 0 }] ∧
    ss_listFromXML packedLayout ⟨"jump_delay", 4 / 5⟩ 0 = .error .nullDeref :=
  ⟨by decide, by decide,
    listFromType_value packedLayout ⟨"jump_delay", 4 / 5⟩ 0 SS_TYPE_D_JUMP_DELAY
      (by decide) (by decide)⟩

/-- C10: on the shipped table `ss_check` returns 0, and the identifiers stored at
positions `0 .. SS_TYPE_SENTINAL` are `0 .. SS_TYPE_SENTINAL` in this order. -/
theorem ss_check_shipped (off : Layout) :
    ss_check off = 0 ∧
    ((ss_lookup off).take (SS_TYPE_SENTINAL + 1)).map (·.type)
      = List.range (SS_TYPE_SENTINAL + 1) :=
  ⟨rfl, rfl⟩

/-! ## Initialisation -/

theorem initStep_shipped (off : Layout) (stats : ShipStats) (sl : ShipStatsLookup)
    (h : sl ∈ (ss_lookup off).take SS_TYPE_SENTINAL) : initStep stats sl = stats := by
  simp only [ss_lookup, SS_TYPE_SENTINAL, List.take_succ_cons, List.take_zero,
    List.mem_cons] at h
  rcases h with h | h | h | h | h | h | h | h | h | h | h | h | h | h | h | h | h | h | h
    | h | h | h | h
  all_goals first
    | (subst h; rfl)
    | (exact absurd h (List.not_mem_nil _))

theorem foldl_initStep (off : Layout) (rows : List ShipStatsLookup) :
    ∀ stats : ShipStats, (∀ sl ∈ rows, sl ∈ (ss_lookup off).take SS_TYPE_SENTINAL) →
      rows.foldl initStep stats = stats := by
  induction rows with
  | nil => intro stats _; rfl
  | cons sl rows ih =>
    intro stats h
    rw [List.foldl_cons, initStep_shipped off stats sl (h sl (List.mem_cons_self _ _))]
    exact ih stats (fun m hm => h m (List.mem_cons_of_mem _ hm))

/-- C3 (fails on the code): `ss_statsInit` returns 0 but stores 1.0 nowhere. The store
is guarded by `sl->type == 0`, true for row 0 only, which has no name and is skipped.
The record is left as it was, or all zero when `DEBUGGING` clears it first. -/
theorem statsInit_stores_nothing (debugging : Bool) (off : Layout) (stats : ShipStats) :
    ss_statsInit debugging off stats = (if debugging then fun _ => 0 else stats, 0) := by
  unfold ss_statsInit
  simp only
  rw [foldl_initStep off _ _ (fun _ h => h)]

/-! ## Folding an override list -/

/-- C4: for a layout with distinct members at distinct offsets, a record `r` and a list
`L` of overrides of scalar statistics, the fold returns 0 and the field addressed by
each scalar identifier `i` ends as its value in `r` times the product of the values
of the nodes of `L` with identifier `i`; untargeted fields keep their value. -/
theorem statsModFromList_product (off : Layout) (hinj : Function.Injective off)
    (r : ShipStats) (L : ShipStatList)
    (hL : ∀ n ∈ L, SS_TYPE_NIL < n.type ∧ n.type < SS_TYPE_D_SENTINAL) :
    ∃ r2 : ShipStats, ss_statsModFromList off r L = .ok (r2, 0) ∧
      ∀ (i : ShipStatsType) (sl : ShipStatsLookup),
        SS_TYPE_NIL < i → i < SS_TYPE_D_SENTINAL → lookupAt off i = .ok sl →
          r2 sl.offset = r sl.offset * ((L.filter (fun n => n.type = i)).map (·.d)).prod ∧
          ((∀ n ∈ L, n.type ≠ i) → r2 sl.offset = r sl.offset) := by
  refine ⟨fun o => r o * cellFactor off L o, ?_, ?_⟩
  · exact modLoop_eq off L r (fun n hn => scalar_le_sentinal n.type (hL n hn))
  · intro i sl h1 h2 hsl
    have ho := (lookupAt_data off i sl hsl).2
    have hprod := cellFactor_type off hinj L hL i h1 h2
    have hval : r sl.offset * cellFactor off L sl.offset
        = r sl.offset * ((L.filter (fun n => n.type = i)).map (·.d)).prod := by
      rw [ho, hprod]
    refine ⟨hval, ?_⟩
    intro hnone
    have hfil : L.filter (fun n => n.type = i) = [] := by
      rw [List.filter_eq_nil_iff]
      intro n hn
      simpa using hnone n hn
    show r sl.offset * cellFactor off L sl.offset = r sl.offset
    rw [hval, hfil]
    simp

/-- Witness of `statsModFromList_product`: two overrides 2.0 and 0.5 of `jump_delay`
on a record of ones give 1.0 in that field. -/
theorem statsModFromList_product_witness :
    ∃ r2 : ShipStats,
      ss_statsModFromList packedLayout (fun _ => 1)
        [⟨0, SS_TYPE_D_JUMP_DELAY, 2⟩, ⟨0, SS_TYPE_D_JUMP_DELAY, 1 / 2⟩] = .ok (r2, 0) ∧
      r2 (packedLayout .jump_delay) = 1 := by
  obtain ⟨r2, hr, hfield⟩ := statsModFromList_product packedLayout packedLayout_injective
    (fun _ => 1) [⟨0, SS_TYPE_D_JUMP_DELAY, 2⟩, ⟨0, SS_TYPE_D_JUMP_DELAY, 1 / 2⟩]
    (by
      intro n hn
      simp only [List.mem_cons, List.mem_singleton, List.not_mem_nil, or_false] at hn
      rcases hn with rfl | rfl <;> decide)
  refine ⟨r2, hr, ?_⟩
  have h := (hfield SS_TYPE_D_JUMP_DELAY (ELEM packedLayout SS_TYPE_D_JUMP_DELAY .jump_delay 0)
    (by decide) (by decide) rfl).1
  simp only [ELEM] at h
  rw [h]
  norm_num [List.filter_cons]

/-- C5: two lists of overrides of scalar statistics that are permutations of each
other fold onto any record to the same record with the same return value 0. -/
theorem statsModFromList_perm (off : Layout) (r : ShipStats) (L1 L2 : ShipStatList)
    (hperm : L1.Perm L2)
    (hL : ∀ n ∈ L1, SS_TYPE_NIL < n.type ∧ n.type < SS_TYPE_D_SENTINAL) :
    ss_statsModFromList off r L1 = ss_statsModFromList off r L2 ∧
    ∃ r2 : ShipStats, ss_statsModFromList off r L1 = .ok (r2, 0) := by
  have h1 : ∀ n ∈ L1, n.type ≤ SS_TYPE_SENTINAL :=
    fun n hn => scalar_le_sentinal n.type (hL n hn)
  have h2 : ∀ n ∈ L2, n.type ≤ SS_TYPE_SENTINAL :=
    fun n hn => h1 n (hperm.mem_iff.mpr hn)
  have e1 := modLoop_eq off L1 r h1
  have e2 := modLoop_eq off L2 r h2
  refine ⟨?_, _, e1⟩
  unfold ss_statsModFromList
  rw [e1, e2]
  have hcell : (fun o => r o * cellFactor off L1 o) = (fun o => r o * cellFactor off L2 o) := by
    funext o
    rw [cellFactor_perm off L1 L2 hperm o]
  rw [hcell]

/-- Witness of `statsModFromList_perm`: overrides of `jump_delay` and `ew_detect` in
the two possible orders. -/
theorem statsModFromList_perm_witness :
    ss_statsModFromList packedLayout (fun _ => 1)
        [⟨0, SS_TYPE_D_JUMP_DELAY, 4 / 5⟩, ⟨0, SS_TYPE_D_EW_DETECT, 6 / 5⟩]
      = ss_statsModFromList packedLayout (fun _ => 1)
        [⟨0, SS_TYPE_D_EW_DETECT, 6 / 5⟩, ⟨0, SS_TYPE_D_JUMP_DELAY, 4 / 5⟩] ∧
    ∃ r2 : ShipStats, ss_statsModFromList packedLayout (fun _ => 1)
        [⟨0, SS_TYPE_D_JUMP_DELAY, 4 / 5⟩, ⟨0, SS_TYPE_D_EW_DETECT, 6 / 5⟩] = .ok (r2, 0) :=
  statsModFromList_perm packedLayout (fun _ => 1) _ _ (List.Perm.swap _ _ _)
    (by
      intro n hn
      simp only [List.mem_cons, List.mem_singleton, List.not_mem_nil, or_false] at hn
      rcases hn with rfl | rfl <;> decide)

/-- C6: folding the empty list leaves every field of the record as it is and returns 0. -/
theorem statsModFromList_nil (off : Layout) (r : ShipStats) :
    ss_statsModFromList off r [] = .ok (r, 0) :=
  rfl

/-! ## End to end -/

/-- C2 (fails on the code): on the document `jump_delay` = 0.8, `ew_detect` = 1.2,
`warp_factor` = 9.0 no record is produced: building the first override already runs
the name lookup into the null name of row 0. -/
theorem resolveDocument_undefined (debugging : Bool) (off : Layout) (heap : ℚ)
    (stats : ShipStats) :
    resolveDocument debugging off heap stats
      [⟨"jump_delay", 4 / 5⟩, ⟨"ew_detect", 6 / 5⟩, ⟨"warp_factor", 9⟩]
      = .error .nullDeref :=
  rfl

/-! ## Catalog self-check over arbitrary tables -/

theorem checkScan_zero_or_fail (l : List ShipStatsLookup) :
    ∀ k, checkScan k l = 0 ∨ checkScan k l = -1 := by
  induction l with
  | nil => intro k; exact Or.inl rfl
  | cons sl rest ih =>
    intro k
    unfold checkScan
    by_cases h : sl.type = k
    · simpa [h] using ih (k + 1)
    · simp [h]

theorem checkScan_eq_zero_iff (l : List ShipStatsLookup) :
    ∀ k, checkScan k l = 0 ↔ ∀ j, j < l.length → l[j]?.map (·.type) = some (k + j) := by
  induction l with
  | nil =>
    intro k
    simp [checkScan]
  | cons sl rest ih =>
    intro k
    unfold checkScan
    by_cases h : sl.type = k
    · simp only [h, ne_eq, not_true_eq_false, if_false]
      rw [ih (k + 1)]
      constructor
      · intro hrest j hj
        cases j with
        | zero => simp [h]
        | succ j =>
          have hj2 : j < rest.length := by simpa using hj
          have := hrest j hj2
          simp only [List.getElem?_cons_succ]
          rw [this]
          congr 1
          omega
      · intro hall j hj
        have := hall (j + 1) (by simpa using hj)
        simp only [List.getElem?_cons_succ] at this
        rw [this]
        congr 1
        omega
    · simp only [ne_eq, h, not_false_eq_true, if_true]
      constructor
      · intro hneg
        exact absurd hneg (by decide)
      · intro hall
        have := hall 0 (by simp)
        simp at this
        exact absurd this h

/-- C11: over any table of the catalog's length the check returns 0 exactly when every
position `0 .. SS_TYPE_SENTINAL` stores its own index as identifier, and -1 otherwise;
exchanging the declared identifiers of any two adjacent rows of the shipped table
makes the check return -1. -/
theorem checkTable_detects (off : Layout) (tbl : List ShipStatsLookup)
    (hlen : tbl.length = SS_TYPE_SENTINAL + 1) :
    (checkTable tbl = 0 ↔ ∀ i, i ≤ SS_TYPE_SENTINAL → tbl[i]?.map (·.type) = some i) ∧
    (checkTable tbl ≠ 0 → checkTable tbl = -1) ∧
    (∀ i, i < SS_TYPE_SENTINAL → checkTable (swapTypes (ss_lookup off) i) = -1) := by
  have htake : tbl.take (SS_TYPE_SENTINAL + 1) = tbl := by
    rw [← hlen]
    exact List.take_length tbl
  refine ⟨?_, ?_, ?_⟩
  · unfold checkTable
    rw [htake, checkScan_eq_zero_iff tbl 0, hlen]
    constructor
    · intro hall i hi
      have := hall i (Nat.lt_succ_of_le hi)
      simpa using this
    · intro hall j hj
      have := hall j (Nat.le_of_lt_succ hj)
      simpa using this
  · intro hne
    unfold checkTable at hne ⊢
    rcases checkScan_zero_or_fail (tbl.take (SS_TYPE_SENTINAL + 1)) 0 with h | h
    · exact absurd h hne
    · exact h
  · intro i hi
    simp only [SS_TYPE_SENTINAL] at hi
    interval_cases i <;> rfl

/-- Witness of `checkTable_detects`: the shipped table under the packed layout. -/
theorem checkTable_detects_witness :
    (ss_lookup packedLayout).length = SS_TYPE_SENTINAL + 1 ∧
    ((checkTable (ss_lookup packedLayout) = 0 ↔
        ∀ i, i ≤ SS_TYPE_SENTINAL → (ss_lookup packedLayout)[i]?.map (·.type) = some i) ∧
      (checkTable (ss_lookup packedLayout) ≠ 0 → checkTable (ss_lookup packedLayout) = -1) ∧
      (∀ i, i < SS_TYPE_SENTINAL →
        checkTable (swapTypes (ss_lookup packedLayout) i) = -1)) :=
  ⟨rfl, checkTable_detects packedLayout (ss_lookup packedLayout) rfl⟩

/-! ## Re-initialisation -/

theorem statsInit_fst (debugging : Bool) (off : Layout) (stats : ShipStats) :
    (ss_statsInit debugging off stats).1 = if debugging then (fun _ => 0) else stats := by
  unfold ss_statsInit
  simp only
  rw [foldl_initStep off _ _ (fun _ h => h)]

theorem cellFactor_jump_delay (off : Layout) (v : ℚ) :
    cellFactor off [⟨0, SS_TYPE_D_JUMP_DELAY, v⟩] (off .jump_delay) = v := by
  have h : typeOffset off SS_TYPE_D_JUMP_DELAY = off .jump_delay := rfl
  simp [cellFactor, h]

/-- C12 (fails on the code): without `DEBUGGING`, a record of ones initialised, folded
with one override 2.0 of `jump_delay` and initialised again keeps 2.0 in that field,
where the initialised record has 1.0: `ss_statsInit` stores nothing, so it resets
nothing. Only the second half of the claim holds: initialising twice is the same as
initialising once. -/
theorem statsInit_no_reset (off : Layout) :
    (∃ r1 : ShipStats,
      ss_statsModFromList off (ss_statsInit false off (fun _ => 1)).1
        [⟨0, SS_TYPE_D_JUMP_DELAY, 2⟩] = .ok (r1, 0) ∧
      (ss_statsInit false off r1).1 (off .jump_delay) = 2 ∧
      (ss_statsInit false off (fun _ => 1)).1 (off .jump_delay) = 1) ∧
    (∀ (debugging : Bool) (r : ShipStats),
      ss_statsInit debugging off (ss_statsInit debugging off r).1
        = ss_statsInit debugging off r) := by
  constructor
  · refine ⟨fun o => 1 * cellFactor off [⟨0, SS_TYPE_D_JUMP_DELAY, 2⟩] o, ?_, ?_, ?_⟩
    · rw [statsInit_fst]
      exact modLoop_eq off _ _ (by
        intro n hn
        simp only [List.mem_singleton] at hn
        subst hn
        decide)
    · rw [statsInit_fst]
      simp [cellFactor_jump_delay]
    · rw [statsInit_fst]
      simp
  · intro debugging r
    have h1 := statsInit_fst debugging off r
    have h2 := statsInit_fst debugging off (ss_statsInit debugging off r).1
    have hret : ∀ x : ShipStats, (ss_statsInit debugging off x).2 = 0 := fun _ => rfl
    apply Prod.ext
    · rw [h2, h1]
      cases debugging <;> simp
    · rw [hret, hret]

/-! ## Names of identifiers -/

/-- C13 (fails as stated): an identifier past `SS_TYPE_SENTINAL` indexes `ss_lookup`
past its end; `ss_nameFromType` has no bounds check and does not return an absent
name there. -/
theorem nameFromType_out_of_range :
    ss_nameFromType packedLayout (SS_TYPE_SENTINAL + 1) = .error .outOfBounds ∧
    ss_nameFromType packedLayout (SS_TYPE_SENTINAL + 1) ≠ .ok none := by
  refine ⟨rfl, ?_⟩
  intro h
  have h2 : ss_nameFromType packedLayout (SS_TYPE_SENTINAL + 1) = .error .outOfBounds := rfl
  rw [h2] at h
  cases h

/-- C13 (amended): for every identifier of the enumeration, `SS_TYPE_NIL` through
`SS_TYPE_SENTINAL`, `ss_nameFromType` returns, and the name returned is absent
exactly for the four sentinel identifiers and present for every other one. -/
theorem nameFromType_in_range (off : Layout) (i : ShipStatsType)
    (h : i ≤ SS_TYPE_SENTINAL) :
    ∃ n, ss_nameFromType off i = .ok n ∧
      (n = none ↔ (i = SS_TYPE_NIL ∨ i = SS_TYPE_D_SENTINAL ∨ i = SS_TYPE_B_SENTINAL
        ∨ i = SS_TYPE_SENTINAL)) := by
  simp only [SS_TYPE_SENTINAL] at h
  interval_cases i <;> refine ⟨_, rfl, ?_⟩ <;>
    simp [SS_TYPE_NIL, SS_TYPE_D_SENTINAL, SS_TYPE_B_SENTINAL, SS_TYPE_SENTINAL,
      ss_lookup, ELEM, NELEM]

/-- Witness of `nameFromType_in_range`: the identifier `SS_TYPE_D_EW_DETECT`. -/
theorem nameFromType_in_range_witness :
    SS_TYPE_D_EW_DETECT ≤ SS_TYPE_SENTINAL ∧
    ∃ n, ss_nameFromType packedLayout SS_TYPE_D_EW_DETECT = .ok n ∧
      (n = none ↔ (SS_TYPE_D_EW_DETECT = SS_TYPE_NIL ∨ SS_TYPE_D_EW_DETECT = SS_TYPE_D_SENTINAL
        ∨ SS_TYPE_D_EW_DETECT = SS_TYPE_B_SENTINAL ∨ SS_TYPE_D_EW_DETECT = SS_TYPE_SENTINAL)) :=
  ⟨by decide, nameFromType_in_range packedLayout SS_TYPE_D_EW_DETECT (by decide)⟩

/-! ## Totality of the fold -/

theorem modLoop_foldlM (off : Layout) (L : ShipStatList) :
    ∀ (stats : ShipStats) (ret : Int),
      modLoop off stats ret L =
        L.foldlM
          (fun (acc : ShipStats × Int) (ll : ShipStatNode) =>
            (ss_statsMod off acc.1 ll).map (fun res => (res.1, Int.lor acc.2 res.2)))
          (stats, ret) := by
  induction L with
  | nil => intro stats ret; rfl
  | cons n L ih =>
    intro stats ret
    rw [List.foldlM_cons]
    unfold modLoop
    cases hmod : ss_statsMod off stats n with
    | error e => rfl
    | ok res =>
      obtain ⟨s1, x⟩ := res
      simp only [bind, Except.bind, Except.map]
      exact ih s1 (Int.lor ret x)

/-- C14: for every record and every list of overrides of scalar statistics the fold
returns, with value 0; it is the application of `ss_statsMod` to every node in
sequence with the results OR-ed together, and each application returns 0. -/
theorem statsModFromList_total (off : Layout) (r : ShipStats) (L : ShipStatList)
    (hL : ∀ n ∈ L, SS_TYPE_NIL < n.type ∧ n.type < SS_TYPE_D_SENTINAL) :
    (∃ r2 : ShipStats, ss_statsModFromList off r L = .ok (r2, 0)) ∧
    ss_statsModFromList off r L = foldEveryNode off r L ∧
    (∀ n ∈ L, ∀ s : ShipStats, ∃ s2 : ShipStats, ss_statsMod off s n = .ok (s2, 0)) := by
  refine ⟨⟨_, modLoop_eq off L r (fun n hn => scalar_le_sentinal n.type (hL n hn))⟩,
    modLoop_foldlM off L r 0, ?_⟩
  intro n hn s
  exact ⟨_, statsMod_eq off s n (scalar_le_sentinal n.type (hL n hn))⟩

/-- Witness of `statsModFromList_total`: the overrides 0.8 of `jump_delay` and 1.2 of
`ew_detect` on a record of ones. -/
theorem statsModFromList_total_witness :
    (∃ r2 : ShipStats, ss_statsModFromList packedLayout (fun _ => 1)
        [⟨0, SS_TYPE_D_JUMP_DELAY, 4 / 5⟩, ⟨0, SS_TYPE_D_EW_DETECT, 6 / 5⟩] = .ok (r2, 0)) ∧
    ss_statsModFromList packedLayout (fun _ => 1)
        [⟨0, SS_TYPE_D_JUMP_DELAY, 4 / 5⟩, ⟨0, SS_TYPE_D_EW_DETECT, 6 / 5⟩]
      = foldEveryNode packedLayout (fun _ => 1)
        [⟨0, SS_TYPE_D_JUMP_DELAY, 4 / 5⟩, ⟨0, SS_TYPE_D_EW_DETECT, 6 / 5⟩] ∧
    (∀ n ∈ ([⟨0, SS_TYPE_D_JUMP_DELAY, 4 / 5⟩, ⟨0, SS_TYPE_D_EW_DETECT, 6 / 5⟩] : ShipStatList),
      ∀ s : ShipStats, ∃ s2 : ShipStats, ss_statsMod packedLayout s n = .ok (s2, 0)) :=
  statsModFromList_total packedLayout (fun _ => 1) _
    (by
      intro n hn
      simp only [List.mem_cons, List.mem_singleton, List.not_mem_nil, or_false] at hn
      rcases hn with rfl | rfl <;> decide)

/-! ## Overrides that carry a sentinel identifier -/

theorem typeOffset_not_scalar (off : Layout) (t : Nat) (h : t ≤ SS_TYPE_SENTINAL)
    (hs : isScalarType t = false) : typeOffset off t = 0 := by
  simp only [SS_TYPE_SENTINAL] at h
  interval_cases t <;> first
    | rfl
    | exact absurd hs (by decide)

theorem cellFactor_filter_scalar (off : Layout) (o : Nat) (ho : o ≠ 0) (L : ShipStatList)
    (hL : ∀ n ∈ L, n.type ≤ SS_TYPE_SENTINAL) :
    cellFactor off (L.filter (fun n => isScalarType n.type)) o = cellFactor off L o := by
  induction L with
  | nil => rfl
  | cons n L ih =>
    have hn := hL n (List.mem_cons_self _ _)
    have hrest : ∀ m ∈ L, m.type ≤ SS_TYPE_SENTINAL :=
      fun m hm => hL m (List.mem_cons_of_mem _ hm)
    cases hs : isScalarType n.type with
    | true =>
      rw [List.filter_cons_of_pos (by simpa using hs), cellFactor_cons, cellFactor_cons,
        ih hrest]
    | false =>
      have hoff := typeOffset_not_scalar off n.type hn hs
      have hne : ¬ typeOffset off n.type = o := by
        rw [hoff]
        exact fun e => ho e.symm
      rw [List.filter_cons_of_neg (by simp [hs]), cellFactor_cons, ih hrest]
      simp [hne]

/-- C15 (fails as stated): one override carrying `SS_TYPE_B_SENTINAL` with value 7.0,
folded onto a record of ones, returns 0, not a failure indicator, and multiplies the
`double` at offset 0 (the member `jump_delay` in the packed layout) by 7.0, whereas
the list without that node leaves the record as it was. -/
theorem sentinel_override_applied :
    (∃ r2 : ShipStats,
      ss_statsModFromList packedLayout (fun _ => 1) [⟨0, SS_TYPE_B_SENTINAL, 7⟩]
        = .ok (r2, 0) ∧
      r2 (packedLayout .jump_delay) = 7) ∧
    ss_statsModFromList packedLayout (fun _ => 1)
        (([⟨0, SS_TYPE_B_SENTINAL, 7⟩] : ShipStatList).filter (fun n => isScalarType n.type))
      = .ok (fun _ => 1, 0) := by
  refine ⟨⟨Function.update (fun _ => 1) 0 (1 * 7), rfl, ?_⟩, rfl⟩
  have h0 : packedLayout .jump_delay = 0 := rfl
  rw [h0, Function.update_same]
  norm_num

/-- C15 (amended): for every record and every list whose identifiers lie in
`SS_TYPE_NIL .. SS_TYPE_SENTINAL`, sentinel identifiers included, the fold returns 0,
and away from byte offset 0 the resulting record equals the one obtained by folding
the list with the non-scalar nodes removed. -/
theorem statsModFromList_sentinel (off : Layout) (r : ShipStats) (L : ShipStatList)
    (hL : ∀ n ∈ L, n.type ≤ SS_TYPE_SENTINAL) :
    ∃ r2 r3 : ShipStats,
      ss_statsModFromList off r L = .ok (r2, 0) ∧
      ss_statsModFromList off r (L.filter (fun n => isScalarType n.type)) = .ok (r3, 0) ∧
      ∀ o, o ≠ 0 → r2 o = r3 o := by
  have hF : ∀ n ∈ L.filter (fun n => isScalarType n.type), n.type ≤ SS_TYPE_SENTINAL :=
    fun n hn => hL n (List.mem_of_mem_filter hn)
  refine ⟨_, _, modLoop_eq off L r hL, modLoop_eq off _ r hF, ?_⟩
  intro o ho
  show r o * cellFactor off L o
    = r o * cellFactor off (L.filter (fun n => isScalarType n.type)) o
  rw [cellFactor_filter_scalar off o ho L hL]

/-- Witness of `statsModFromList_sentinel`: an override of `jump_delay` followed by a
node carrying `SS_TYPE_B_SENTINAL`. -/
theorem statsModFromList_sentinel_witness :
    ∃ r2 r3 : ShipStats,
      ss_statsModFromList packedLayout (fun _ => 1)
        [⟨0, SS_TYPE_D_JUMP_DELAY, 2⟩, ⟨0, SS_TYPE_B_SENTINAL, 7⟩] = .ok (r2, 0) ∧
      ss_statsModFromList packedLayout (fun _ => 1)
        (([⟨0, SS_TYPE_D_JUMP_DELAY, 2⟩, ⟨0, SS_TYPE_B_SENTINAL, 7⟩] : ShipStatList).filter
          (fun n => isScalarType n.type)) = .ok (r3, 0) ∧
      ∀ o, o ≠ 0 → r2 o = r3 o :=
  statsModFromList_sentinel packedLayout (fun _ => 1)
    [⟨0, SS_TYPE_D_JUMP_DELAY, 2⟩, ⟨0, SS_TYPE_B_SENTINAL, 7⟩]
    (by
      intro n hn
      simp only [List.mem_cons, List.mem_singleton, List.not_mem_nil, or_false] at hn
      rcases hn with rfl | rfl <;> decide)

/-! ## What the scan compares, and the names it could find -/

/-- C16 (fails on the code): for every input string the first and only `strcmp` of the
scan of `ss_typeFromName` receives the null name of row 0 (`SS_TYPE_NIL`); the scan
stops there, undefined, and does not reach the terminal sentinel. -/
theorem scan_compares_null_name (off : Layout) (s : String) :
    comparedNames s (ss_lookup off) = [none] ∧
    (ss_lookup off).head? = some (NELEM SS_TYPE_NIL) ∧
    typeFromNameScan s (ss_lookup off) = .error .nullDeref :=
  ⟨rfl, rfl, rfl⟩

/-- C17 (fails on the code): the nineteen named rows all carry the name `#n`; the name
of the row of `SS_TYPE_D_JUMP_DELAY` is not `jump_delay`, and the rows of
`SS_TYPE_D_JUMP_DELAY` and `SS_TYPE_D_EW_DETECT` have the same name. -/
theorem catalog_names_literal (off : Layout) :
    ((ss_lookup off).filter (fun sl => sl.name.isSome)).map (·.name)
      = List.replicate 19 (some "#n") ∧
    ss_nameFromType off SS_TYPE_D_JUMP_DELAY ≠ .ok (some (fieldName .jump_delay)) ∧
    ss_nameFromType off SS_TYPE_D_JUMP_DELAY = ss_nameFromType off SS_TYPE_D_EW_DETECT := by
  refine ⟨rfl, ?_, rfl⟩
  simp [ss_nameFromType, lookupAt, ss_lookup, ELEM, NELEM, fieldName, SS_TYPE_D_JUMP_DELAY,
    Except.map]

end Naev
